import Mathlib

/-!
Shallow embedding of the tic-tac-toe game engine from `src/game/game.go`
(package `game`), together with theorems checking the natural-language
specification against it.

Modelling conventions:
* Go's `Piece int` with constants `blank = 0`, `xPiece = -1`, `oPiece = 1`
  becomes an enumeration with an integer `weight` projection.
* Pointers that may be `nil` (`*Player`, `*Board`) become `Option`.
* A Go runtime panic (nil-pointer dereference or out-of-range array index)
  is modelled as the `none` result of an `Option`-returning operation.
* Mutating methods become functions `Game → ... → Game × Option Err`
  (post-state plus the returned error), so "state unchanged on error" is a
  provable statement, never baked into the types.
* Logging, JSON, channels and the timeout goroutines are side effects with
  no influence on the caller-visible game state and are omitted; the
  random draw-resolution coin (`rand.Float32() < 0.5` in `NextGame`) is an
  explicit `Bool` parameter.
-/

/-- `Piece` from game.go: blank = 0, xPiece = -1, oPiece = 1. -/
inductive Piece where
  | blank
  | xPiece
  | oPiece
deriving DecidableEq, Repr, Fintype

/-- The integer value of a piece, matching the Go constants
(x = -1, o = 1, empty = 0). -/
def Piece.weight : Piece → Int
  | .blank => 0
  | .xPiece => -1
  | .oPiece => 1

/-- One row of the 3×3 Go array `[3]Piece`. -/
structure Row where
  c0 : Piece
  c1 : Piece
  c2 : Piece
deriving DecidableEq, Repr, Fintype

/-- `Board` from game.go: `[3][3]Piece`, indexed `board[y][x]`. -/
structure Board where
  r0 : Row
  r1 : Row
  r2 : Row
deriving DecidableEq, Repr, Fintype

def emptyRow : Row := ⟨.blank, .blank, .blank⟩

/-- The all-blank board built by `New` and `clearBoard`. -/
def emptyBoard : Board := ⟨emptyRow, emptyRow, emptyRow⟩

/-- Go array indexing `row[x]` for an `int` index: in Go an out-of-range
index panics, modelled by `none`. -/
def Row.get (r : Row) (x : Int) : Option Piece :=
  if x = 0 then some r.c0
  else if x = 1 then some r.c1
  else if x = 2 then some r.c2
  else none

def Row.set (r : Row) (x : Int) (p : Piece) : Row :=
  if x = 0 then { r with c0 := p }
  else if x = 1 then { r with c1 := p }
  else if x = 2 then { r with c2 := p }
  else r

/-- Go array indexing `board[y]`; out of range panics (`none`). -/
def Board.row (b : Board) (y : Int) : Option Row :=
  if y = 0 then some b.r0
  else if y = 1 then some b.r1
  else if y = 2 then some b.r2
  else none

/-- `board[y][x]` for `int` coordinates; `none` models the Go panic on an
out-of-range index. -/
def Board.cellAt (b : Board) (y x : Int) : Option Piece :=
  (b.row y).bind fun r => r.get x

/-- Writing `board[y][x] = p`. Only used at in-range coordinates
(`PlacePiece` reads the cell first, so an out-of-range write is
unreachable); out of range it returns the board unchanged. -/
def Board.setCell (b : Board) (y x : Int) (p : Piece) : Board :=
  if y = 0 then { b with r0 := b.r0.set x p }
  else if y = 1 then { b with r1 := b.r1.set x p }
  else if y = 2 then { b with r2 := b.r2.set x p }
  else b

/-- `Player` from game.go: an id and an optional display name. -/
structure Player where
  ID : String
  Name : Option String
deriving DecidableEq, Repr

/-- `Status` from game.go (a string type with six named constants). -/
inductive Status where
  | InsufficientPlayers
  | NoBoard
  | XWins
  | OWins
  | Cats
  | InProgress
deriving DecidableEq, Repr

/-- `Move` from game.go: y, x (Go `int`) and the submitting player id. -/
structure Move where
  YAxis : Int
  XAxis : Int
  PlayerID : String
deriving DecidableEq, Repr

/-- The game-level errors of game.go (`ErrPlayerNotFound`,
`ErrGameInProgress`, `ErrInvalidMove`) plus the two ad-hoc errors built in
`AddPlayer` with `errors.New`. -/
inductive Err where
  | playerNotFound
  | gameInProgress
  | invalidMove
  | alreadyQueued
  | alreadyPlaying
deriving DecidableEq, Repr

/-- `Game` from game.go, restricted to the caller-visible state: the
board pointer, the queue, both seat pointers, the `Move` turn string
("X", "O" or ""), and the stored `Status` field.  The logger, channels
and timeout fields carry no game state. -/
structure Game where
  Board : Option Board
  Queue : List Player
  X : Option Player
  O : Option Player
  Move : String
  Status : Status
deriving DecidableEq, Repr

/-- The game produced by `New`: empty board, empty queue, both seats nil,
zero-valued `Move` string, status `InsufficientPlayers`. -/
def newGame : Game :=
  { Board := some emptyBoard
    Queue := []
    X := none
    O := none
    Move := ""
    Status := .InsufficientPlayers }

/-- `clearBoard` from game.go: point the board at a fresh blank board. -/
def clearBoard (g : Game) : Game := { g with Board := some emptyBoard }

/-- `Clear` from game.go.  The method body is `g = New(g.log, g.timeout,
g.UpdatedCh)`: it reassigns the *local copy* of the receiver pointer, so
the caller's game instance is left completely untouched.  The
caller-visible effect is therefore the identity. -/
def Clear (g : Game) : Game := g

/-- `checkScore` from game.go: 3 (`oWins`) signals OWins, -3 (`xWins`)
signals XWins, anything else signals nothing. -/
def checkScore (s : Int) : Option Status :=
  if s = 3 then some .OWins
  else if s = -3 then some .XWins
  else none

/-- Sum of a row's piece values, as accumulated by the inner loop of
`status`. -/
def Row.sum (r : Row) : Int :=
  r.c0.weight + r.c1.weight + r.c2.weight

/-- Number of non-blank cells in a row (the `movesLeft--` decrements). -/
def Row.filled (r : Row) : Nat :=
  (if r.c0 ≠ .blank then 1 else 0) +
  (if r.c1 ≠ .blank then 1 else 0) +
  (if r.c2 ≠ .blank then 1 else 0)

/-- Number of non-blank cells on the board. -/
def Board.filled (b : Board) : Nat :=
  b.r0.filled + b.r1.filled + b.r2.filled

/-- The `movesLeft` counter of `status`: starts at 9, decremented once per
non-blank cell. -/
def movesLeft (b : Board) : Int :=
  9 - (b.filled : Int)

/-- Column sums as accumulated in `colSums` by `status`. -/
def Board.colSum (b : Board) (x : Int) : Int :=
  match (b.r0.get x), (b.r1.get x), (b.r2.get x) with
  | some a, some c, some d => a.weight + c.weight + d.weight
  | _, _, _ => 0

/-- First-some choice, mirroring the early `return` of `status` as soon as
a `checkScore` call reports a winner. -/
def orStatus (a b : Option Status) : Option Status :=
  match a with
  | some s => some s
  | none => b

/-- The line-scanning portion of `status` from game.go, in source order.

Faithfulness note: after each row the source adds the row's sum to the
running `boardTotal` and calls `checkScore(boardTotal)` — the *cumulative*
total over all rows so far, not the row's own sum.  Column sums and the
two diagonals are then checked individually. -/
def boardScan (b : Board) : Option Status :=
  let t1 := b.r0.sum
  let t2 := t1 + b.r1.sum
  let t3 := t2 + b.r2.sum
  orStatus (checkScore t1)
    (orStatus (checkScore t2)
      (orStatus (checkScore t3)
        (orStatus (checkScore (b.colSum 0))
          (orStatus (checkScore (b.colSum 1))
            (orStatus (checkScore (b.colSum 2))
              (orStatus
                (checkScore
                  (b.r0.c0.weight + b.r1.c1.weight + b.r2.c2.weight))
                (checkScore
                  (b.r2.c0.weight + b.r1.c1.weight + b.r0.c2.weight))))))))

/-- The board-dependent tail of `status`: line scan, then the full-board
check (`movesLeft == 0` ⇒ `Cats`), else `InProgress`. -/
def statusOfBoard (b : Board) : Status :=
  match boardScan b with
  | some s => s
  | none => if movesLeft b = 0 then .Cats else .InProgress

/-- `status` from game.go: seats first, then the board pointer, then the
board scan.  (The return type is written via full constructor names: the
field `Game.Status` shadows the type name `Status` inside the `Game`
namespace.) -/
def Game.status (g : Game) :=
  if g.X.isNone || g.O.isNone then Status.InsufficientPlayers
  else
    match g.Board with
    | none => Status.NoBoard
    | some b => statusOfBoard b

/-- `updateStatus` from game.go: refresh the stored status field. -/
def updateStatus (g : Game) : Game := { g with Status := g.status }

/-- `advanceQueue` from game.go, as a function of the queue: append the
loser (when non-nil) to the back, then pop and return the front if the
queue is non-empty, else return nil and leave the queue (empty). -/
def advanceQueue (q : List Player) (loser : Option Player) :
    Option Player × List Player :=
  let q1 := match loser with
    | some l => q ++ [l]
    | none => q
  match q1 with
  | [] => (none, q1)
  | p :: rest => (some p, rest)

/-- `NextGame` from game.go.  `coin` is the random draw-resolution flip
(`xWins := rand.Float32() < 0.5` in the `Cats` branch: `coin = true`
means X is the random winner, so O rotates out). -/
def NextGame (coin : Bool) (g : Game) : Except Err Game :=
  match g.Status with
  | Status.XWins =>
    let g1 := clearBoard { g with Move := "O" }
    let r := advanceQueue g1.Queue g1.O
    Except.ok (updateStatus { g1 with O := r.1, Queue := r.2 })
  | Status.OWins =>
    let g1 := clearBoard { g with Move := "X" }
    let r := advanceQueue g1.Queue g1.X
    Except.ok (updateStatus { g1 with X := r.1, Queue := r.2 })
  | Status.Cats =>
    if coin then
      let r := advanceQueue g.Queue g.O
      Except.ok (updateStatus
        (clearBoard { g with Move := "O", O := r.1, Queue := r.2 }))
    else
      let r := advanceQueue g.Queue g.X
      Except.ok (updateStatus
        (clearBoard { g with Move := "X", X := r.1, Queue := r.2 }))
  | Status.InProgress =>
    -- someone probably quit; refill empty seats from the queue
    let g1 := match g.X with
      | none =>
        let r := advanceQueue g.Queue none
        { g with X := r.1, Queue := r.2 }
      | some _ => g
    let g2 := match g1.O with
      | none =>
        let r := advanceQueue g1.Queue none
        { g1 with O := r.1, Queue := r.2 }
      | some _ => g1
    Except.ok (updateStatus g2)
  | Status.InsufficientPlayers => Except.ok (updateStatus g)
  | Status.NoBoard =>
    -- the `default` arm of the source switch: method called incorrectly
    Except.error Err.gameInProgress

/-- The `g.X != nil && g.X.ID == id` pattern used throughout game.go. -/
def occupiedBy : Option Player → String → Bool
  | some p, id => p.ID == id
  | none, _ => false

/-- `PlacePiece` from game.go.  Result `none` models a Go runtime panic
(nil `*Player` or `*Board` dereference, or an out-of-range board index —
the source has no bounds check on `move.YAxis`/`move.XAxis`).  Otherwise
the result is the post-state paired with the returned error. -/
def PlacePiece (g : Game) (m : Move) : Option (Game × Option Err) :=
  match g.Status with
  | Status.XWins | Status.OWins | Status.NoBoard
  | Status.Cats | Status.InsufficientPlayers =>
      some (g, some Err.invalidMove)
  | Status.InProgress =>
    if g.Move = "X" then
      match g.X with
      | none => none
      | some p =>
        if p.ID ≠ m.PlayerID then some (g, some Err.invalidMove)
        else
          match g.Board with
          | none => none
          | some b =>
            match b.cellAt m.YAxis m.XAxis with
            | none => none
            | some c =>
              if c ≠ Piece.blank then some (g, some Err.invalidMove)
              else
                some (updateStatus
                  { g with
                    Board := some (b.setCell m.YAxis m.XAxis Piece.xPiece)
                    Move := "O" }, none)
    else if g.Move = "O" then
      match g.O with
      | none => none
      | some p =>
        if p.ID ≠ m.PlayerID then some (g, some Err.invalidMove)
        else
          match g.Board with
          | none => none
          | some b =>
            match b.cellAt m.YAxis m.XAxis with
            | none => none
            | some c =>
              if c ≠ Piece.blank then some (g, some Err.invalidMove)
              else
                some (updateStatus
                  { g with
                    Board := some (b.setCell m.YAxis m.XAxis Piece.oPiece)
                    Move := "X" }, none)
    else
      -- the empty `default` arm: fall through to updateStatus, nil error
      some (updateStatus g, none)

/-- `AddPlayer` from game.go: reject an id already queued or seated, else
fill seat X first, then seat O, else append to the queue; filling the
second seat starts the game (status `InProgress`). -/
def AddPlayer (g : Game) (p : Player) : Game × Option Err :=
  if g.Queue.any fun q => q.ID == p.ID then (g, some Err.alreadyQueued)
  else if occupiedBy g.X p.ID || occupiedBy g.O p.ID then
    (g, some Err.alreadyPlaying)
  else
    match g.X with
    | none =>
      match g.O with
      | none => ({ g with X := some p, Move := "X" }, none)
      | some _ => ({ g with X := some p, Status := Status.InProgress }, none)
    | some _ =>
      match g.O with
      | none =>
        -- the source re-checks `g.X == nil` here; it cannot hold on this
        -- path, so only the game-starting arm is reachable
        ({ g with O := some p, Status := Status.InProgress }, none)
      | some _ => ({ g with Queue := g.Queue ++ [p] }, none)

/-- The queue loop of `UpdatePlayer`: replace the first entry with the
given id, or report that no entry matched. -/
def replaceInQueue (p : Player) : List Player → Option (List Player)
  | [] => none
  | q :: rest =>
    if q.ID == p.ID then some (p :: rest)
    else (replaceInQueue p rest).map fun r => q :: r

/-- `UpdatePlayer` from game.go: look the id up in seat X, seat O, then
the queue, replacing the stored record in place. -/
def UpdatePlayer (g : Game) (p : Player) : Game × Option Err :=
  if occupiedBy g.X p.ID then ({ g with X := some p }, none)
  else if occupiedBy g.O p.ID then ({ g with O := some p }, none)
  else
    match replaceInQueue p g.Queue with
    | some q => ({ g with Queue := q }, none)
    | none => (g, some Err.playerNotFound)

/-- The index-scan-and-splice of `RemovePlayer`: drop the first queue
entry with the given id, or report that no entry matched. -/
def removeFirst (id : String) : List Player → Option (List Player)
  | [] => none
  | q :: rest =>
    if q.ID == id then some rest
    else (removeFirst id rest).map fun r => q :: r

/-- `RemovePlayer` from game.go: a seated id vacates its seat, clears the
board and runs `NextGame` (whose error, if any, is propagated with the
state mutated so far kept); a queued id is spliced out; otherwise
`ErrPlayerNotFound`.  `coin` feeds `NextGame`'s draw resolution. -/
def RemovePlayer (coin : Bool) (g : Game) (id : String) : Game × Option Err :=
  if occupiedBy g.X id then
    let g1 := clearBoard { g with X := none }
    match NextGame coin g1 with
    | Except.ok g2 => (g2, none)
    | Except.error e => (g1, some e)
  else if occupiedBy g.O id then
    let g1 := clearBoard { g with O := none }
    match NextGame coin g1 with
    | Except.ok g2 => (g2, none)
    | Except.error e => (g1, some e)
  else
    match removeFirst id g.Queue with
    | some q => ({ g with Queue := q }, none)
    | none => (g, some Err.playerNotFound)

/-- The spec's input contract for coordinates: integers in [0,2]×[0,2]. -/
def moveInBounds (m : Move) : Bool :=
  (0 ≤ m.XAxis && m.XAxis < 3) && (0 ≤ m.YAxis && m.YAxis < 3)

/-- All nine cells, row-major. -/
def Board.cells (b : Board) : List Piece :=
  [b.r0.c0, b.r0.c1, b.r0.c2,
   b.r1.c0, b.r1.c1, b.r1.c2,
   b.r2.c0, b.r2.c1, b.r2.c2]

/-- Spec-side predicate: every cell of the board is non-empty. -/
def Board.isFull (b : Board) : Bool :=
  b.cells.all fun c => c != Piece.blank

/-- The eight line sums of the spec: 3 rows, 3 columns, 2 diagonals. -/
def Board.lineSums (b : Board) : List Int :=
  [b.r0.sum, b.r1.sum, b.r2.sum,
   b.colSum 0, b.colSum 1, b.colSum 2,
   b.r0.c0.weight + b.r1.c1.weight + b.r2.c2.weight,
   b.r2.c0.weight + b.r1.c1.weight + b.r0.c2.weight]

/-- Spec-side predicate: no row, column or diagonal sums to -3 or +3. -/
def Board.noThreeInLine (b : Board) : Bool :=
  b.lineSums.all fun s => s != -3 && s != 3

/-- Encoding of the two non-blank pieces, used to decide full-board
properties over 2^9 rather than 3^9 cases. -/
def pieceOfBool (b : Bool) : Piece :=
  if b then Piece.oPiece else Piece.xPiece

/-- A board whose nine cells are all non-blank, from nine booleans. -/
def boardOfBools (a b c d e f g h i : Bool) : Board :=
  ⟨⟨pieceOfBool a, pieceOfBool b, pieceOfBool c⟩,
   ⟨pieceOfBool d, pieceOfBool e, pieceOfBool f⟩,
   ⟨pieceOfBool g, pieceOfBool h, pieceOfBool i⟩⟩

/-! ## Concrete states used by individual claims -/

def pX : Player := ⟨"px", none⟩
def pO : Player := ⟨"po", none⟩
def pQ : Player := ⟨"q1", none⟩

/-- A legally reachable mid-game board: O owns (0,0) and (0,1), X owns
(1,0) and (1,1); X to move. -/
def c1Board : Board :=
  ⟨⟨.oPiece, .oPiece, .blank⟩,
   ⟨.xPiece, .xPiece, .blank⟩,
   ⟨.blank, .blank, .blank⟩⟩

def c1Game : Game :=
  { Board := some c1Board
    Queue := []
    X := some pX
    O := some pO
    Move := "X"
    Status := .InProgress }

/-- X completes the middle row at (x,y) = (2,1). -/
def c1Move : Move := { YAxis := 1, XAxis := 2, PlayerID := "px" }

def c1BoardAfter : Board :=
  ⟨⟨.oPiece, .oPiece, .blank⟩,
   ⟨.xPiece, .xPiece, .xPiece⟩,
   ⟨.blank, .blank, .blank⟩⟩

/-- A game that has just been won by X, with one player waiting. -/
def c2Game : Game :=
  { Board := some c1BoardAfter
    Queue := [pQ]
    X := some pX
    O := some pO
    Move := "X"
    Status := .XWins }

/-- The spec's own full-board draw example: rows [A,B,A],[A,B,B],[B,A,B]
with A = xPiece, B = oPiece. -/
def c7Board : Board :=
  ⟨⟨.xPiece, .oPiece, .xPiece⟩,
   ⟨.xPiece, .oPiece, .oPiece⟩,
   ⟨.oPiece, .xPiece, .oPiece⟩⟩

def c7Game : Game :=
  { Board := some c7Board
    Queue := []
    X := some pX
    O := some pO
    Move := "X"
    Status := .InProgress }

/-- A drawn game (status Cats) used for the C4 witness. -/
def c4Game : Game :=
  { Board := some c7Board
    Queue := []
    X := some pX
    O := some pO
    Move := "X"
    Status := .Cats }

def c4Move : Move := { YAxis := 0, XAxis := 0, PlayerID := "px" }

/-- A populated game used to exhibit the `Clear` bug. -/
def c5Game : Game :=
  { Board := some c1Board
    Queue := [pQ]
    X := some pX
    O := some pO
    Move := "X"
    Status := .InProgress }

/-- A game whose stored status is XWins (the 3-second advancement delay
after a winning move has not fired yet) with a player waiting in the
queue; X is then removed. -/
def c6Game : Game :=
  { Board := some c1BoardAfter
    Queue := [pQ]
    X := some pX
    O := some pO
    Move := "X"
    Status := .XWins }

/-- An in-progress game used for the C6 witness. -/
def c6GameB : Game :=
  { Board := some c1Board
    Queue := [pQ]
    X := some pX
    O := some pO
    Move := "X"
    Status := .InProgress }

/-- An in-progress game on an empty board, X to move. -/
def c8Game : Game :=
  { Board := some emptyBoard
    Queue := []
    X := some pX
    O := some pO
    Move := "X"
    Status := .InProgress }

/-- An out-of-range move (x = 5) submitted by the seated mover. -/
def c8Move : Move := { YAxis := 0, XAxis := 5, PlayerID := "px" }

/-- The ids an optional seat contributes. -/
def seatIds (s : Option Player) : List String :=
  s.toList.map Player.ID

/-- Every id the game currently tracks, in seat X / seat O / queue
order.  The C9 invariant is that this list has no duplicates. -/
def gameIds (g : Game) : List String :=
  seatIds g.X ++ (seatIds g.O ++ g.Queue.map Player.ID)

/-- The game states reachable from the just-constructed game through the
public operations (with every outcome of the draw-resolution coin). -/
inductive Reachable : Game → Prop
  | init : Reachable newGame
  | add (g : Game) (p : Player) : Reachable g → Reachable (AddPlayer g p).1
  | upd (g : Game) (p : Player) : Reachable g →
      Reachable (UpdatePlayer g p).1
  | rem (coin : Bool) (g : Game) (id : String) : Reachable g →
      Reachable (RemovePlayer coin g id).1
  | place (g g' : Game) (m : Move) (e : Option Err) : Reachable g →
      PlacePiece g m = some (g', e) → Reachable g'
  | next (coin : Bool) (g g' : Game) : Reachable g →
      NextGame coin g = Except.ok g' → Reachable g'

/-! ## Helper lemmas -/

/-- `advanceQueue` in closed form: append the loser, then split off the
head of the result. -/
theorem advanceQueue_eq (q : List Player) (l : Option Player) :
    advanceQueue q l = ((q ++ l.toList).head?, (q ++ l.toList).tail) := by
  cases l <;> cases q <;> simp [advanceQueue]

/-- An out-of-range coordinate pair makes the board index panic: `cellAt`
returns `none`. -/
theorem cellAt_out_of_bounds (b : Board) (m : Move)
    (h : moveInBounds m = false) :
    b.cellAt m.YAxis m.XAxis = none := by
  have h' : ¬(0 ≤ m.XAxis ∧ m.XAxis < 3 ∧ 0 ≤ m.YAxis ∧ m.YAxis < 3) := by
    intro ⟨h1, h2, h3, h4⟩
    simp [moveInBounds, h1, h2, h3, h4] at h
  unfold Board.cellAt Board.row Row.get
  split_ifs <;> simp_all

/-! ## Theorems for the claims -/

/-- C1: the claim says a row of three X pieces (weights summing to -3)
yields status XWins.  The code instead checks the *cumulative* running
board total after each row, so the winning middle row here goes
undetected: placing the move that completes a middle row of three X
pieces leaves the recomputed status `InProgress`, not `XWins`, even
though the middle row's weights sum to -3.  (Column and diagonal
detection are unaffected.)  This evaluates the code at the failing
input; the board is reachable in legal alternating play. -/
theorem c1_row_win_missed :
    PlacePiece c1Game c1Move =
      some ({ c1Game with
                Board := some c1BoardAfter
                Move := "O"
                Status := .InProgress }, none) ∧
    c1BoardAfter.r1.sum = -3 := by decide

/-- C2: after an XWins advancement with a non-empty queue and seat O
occupied, X keeps the seat, O is reseated with the previous queue head,
the head leaves the queue, the previous O goes to the queue tail, the
board is cleared, and O moves first in the next round. -/
theorem c2_xwins_rotation (coin : Bool) (g : Game) (o hd : Player)
    (rest : List Player)
    (hs : g.Status = .XWins) (hq : g.Queue = hd :: rest)
    (ho : g.O = some o) :
    ∃ g', NextGame coin g = Except.ok g' ∧
      g'.X = g.X ∧ g'.O = some hd ∧ g'.Queue = rest ++ [o] ∧
      g'.Board = some emptyBoard ∧ g'.Move = "O" := by
  obtain ⟨B, Q, X, O, MV, ST⟩ := g
  dsimp only at hs hq ho ⊢
  subst hs; subst hq; subst ho
  exact ⟨_, rfl, rfl, rfl, rfl, rfl, rfl⟩

/-- Witness for C2 at a concrete winning game. -/
theorem c2_witness :
    c2Game.Status = .XWins ∧ c2Game.Queue = [pQ] ∧ c2Game.O = some pO ∧
    ∃ g', NextGame true c2Game = Except.ok g' ∧
      g'.X = c2Game.X ∧ g'.O = some pQ ∧ g'.Queue = [pO] ∧
      g'.Board = some emptyBoard ∧ g'.Move = "O" :=
  ⟨rfl, rfl, rfl,
   c2_xwins_rotation true c2Game pO pQ [] rfl rfl rfl⟩

/-- C3: `advanceQueue` appends the outgoing player (when present) and
then pops the front of the resulting queue (returning nothing on an
empty queue), so the remaining queue is exactly the FIFO tail; in
particular on queue [P1,P2] with outgoing O it returns P1 and leaves
[P2,O]. -/
theorem c3_advanceQueue_fifo :
    (∀ (q : List Player) (l : Option Player),
       advanceQueue q l = ((q ++ l.toList).head?, (q ++ l.toList).tail)) ∧
    (∀ p1 p2 o : Player,
       advanceQueue [p1, p2] (some o) = (some p1, [p2, o])) :=
  ⟨advanceQueue_eq, fun _ _ _ => rfl⟩

/-- C4: for an in-range move, `PlacePiece` returns `ErrInvalidMove` and
leaves the whole game state unchanged whenever (a) the stored status is
XWins, OWins, Cats, NoBoard or InsufficientPlayers, or (b) the game is
in progress and the submitted id is not the id of the seat whose turn it
is, or (c) the game is in progress, the right player moved, but the
targeted cell is already occupied. -/
theorem c4_invalid_move_rejected (g : Game) (m : Move)
    (_hb : moveInBounds m = true)
    (h : (g.Status = .XWins ∨ g.Status = .OWins ∨ g.Status = .Cats ∨
          g.Status = .NoBoard ∨ g.Status = .InsufficientPlayers)
       ∨ (g.Status = .InProgress ∧ ∃ p,
            ((g.Move = "X" ∧ g.X = some p) ∨ (g.Move = "O" ∧ g.O = some p)) ∧
            p.ID ≠ m.PlayerID)
       ∨ (g.Status = .InProgress ∧ ∃ p b pc,
            ((g.Move = "X" ∧ g.X = some p) ∨ (g.Move = "O" ∧ g.O = some p)) ∧
            p.ID = m.PlayerID ∧ g.Board = some b ∧
            b.cellAt m.YAxis m.XAxis = some pc ∧ pc ≠ Piece.blank)) :
    PlacePiece g m = some (g, some Err.invalidMove) := by
  obtain ⟨B, Q, X, O, MV, ST⟩ := g
  dsimp only at h ⊢
  rcases h with (hs | hs | hs | hs | hs) |
    ⟨hs, p, (⟨hmv, hseat⟩ | ⟨hmv, hseat⟩), hne⟩ |
    ⟨hs, p, b, pc, (⟨hmv, hseat⟩ | ⟨hmv, hseat⟩), hid, hbd, hcell, hpc⟩ <;>
    subst hs <;> try subst hmv
  · rfl
  · rfl
  · rfl
  · rfl
  · rfl
  · -- (b), whoseTurn = X
    subst hseat
    simp [PlacePiece, hne]
  · -- (b), whoseTurn = O
    subst hseat
    simp [PlacePiece, hne]
  · -- (c), whoseTurn = X
    subst hseat; subst hbd
    simp [PlacePiece, hid, hcell, hpc]
  · -- (c), whoseTurn = O
    subst hseat; subst hbd
    simp [PlacePiece, hid, hcell, hpc]

/-- Witness for C4: a move submitted into a drawn game is rejected with
the state untouched. -/
theorem c4_witness :
    moveInBounds c4Move = true ∧ c4Game.Status = .Cats ∧
    PlacePiece c4Game c4Move = some (c4Game, some Err.invalidMove) :=
  ⟨rfl, rfl,
   c4_invalid_move_rejected c4Game c4Move rfl
     (Or.inl (Or.inr (Or.inr (Or.inl rfl))))⟩

/-- C5: the claim says `Clear` puts the caller's game back in the
just-constructed shape.  The method body `g = New(...)` only reassigns
the local receiver variable, so the caller's instance is unchanged: on a
populated game the result still differs from the just-constructed
game. -/
theorem c5_clear_is_noop :
    Clear c5Game = c5Game ∧ Clear c5Game ≠ newGame := by decide

/-- C6 counterexample: the claim says removing a seated player reseeds
the *vacated* seat from the queue head and leaves the other seat
untouched, for every game state.  When the stored status is a terminal
one (here XWins, reachable because the post-win advancement is delayed
by 3 seconds), `RemovePlayer` runs `NextGame`, whose XWins rule rotates
seat O instead: the removed seat X stays empty and the other seat's
occupant changes. -/
theorem c6_counterexample :
    (RemovePlayer true c6Game "px").1.X = none ∧
    (RemovePlayer true c6Game "px").1.O ≠ c6Game.O ∧
    c6Game.Queue ≠ [] := by decide

/-- C6 as amended: when the stored status is `InProgress` and both seats
are occupied (with distinct ids), removing a seated player vacates that
seat, clears the board, reseeds the vacated seat from the queue head (or
leaves it empty when the queue is empty), removes that head from the
queue, and leaves the other seat's occupant unchanged. -/
theorem c6_amended_inprogress_removal :
    (∀ (coin : Bool) (g : Game) (p o : Player),
       g.Status = .InProgress → g.X = some p → g.O = some o →
       (RemovePlayer coin g p.ID).2 = none ∧
       (RemovePlayer coin g p.ID).1.X = g.Queue.head? ∧
       (RemovePlayer coin g p.ID).1.O = g.O ∧
       (RemovePlayer coin g p.ID).1.Board = some emptyBoard ∧
       (RemovePlayer coin g p.ID).1.Queue = g.Queue.tail) ∧
    (∀ (coin : Bool) (g : Game) (p o : Player),
       g.Status = .InProgress → g.X = some p → g.O = some o →
       p.ID ≠ o.ID →
       (RemovePlayer coin g o.ID).2 = none ∧
       (RemovePlayer coin g o.ID).1.O = g.Queue.head? ∧
       (RemovePlayer coin g o.ID).1.X = g.X ∧
       (RemovePlayer coin g o.ID).1.Board = some emptyBoard ∧
       (RemovePlayer coin g o.ID).1.Queue = g.Queue.tail) := by
  constructor
  · intro coin g p o hs hx ho
    obtain ⟨B, Q, X, O, MV, ST⟩ := g
    dsimp only at hs hx ho ⊢
    subst hs; subst hx; subst ho
    simp [RemovePlayer, occupiedBy, NextGame, clearBoard, updateStatus,
      advanceQueue_eq]
  · intro coin g p o hs hx ho hne
    obtain ⟨B, Q, X, O, MV, ST⟩ := g
    dsimp only at hs hx ho ⊢
    subst hs; subst hx; subst ho
    have hxo : occupiedBy (some p) o.ID = false := by
      simp [occupiedBy]
      exact hne
    simp [RemovePlayer, occupiedBy, hxo, NextGame, clearBoard,
      updateStatus, advanceQueue_eq, hne]

/-- Witness for C6 (amended) on a concrete in-progress game. -/
theorem c6_witness :
    c6GameB.Status = .InProgress ∧ c6GameB.X = some pX ∧
    c6GameB.O = some pO ∧
    (RemovePlayer true c6GameB "px").2 = none ∧
    (RemovePlayer true c6GameB "px").1.X = some pQ ∧
    (RemovePlayer true c6GameB "px").1.O = some pO ∧
    (RemovePlayer true c6GameB "px").1.Board = some emptyBoard ∧
    (RemovePlayer true c6GameB "px").1.Queue = [] := by
  have h := (c6_amended_inprogress_removal).1 true c6GameB pX pO rfl rfl rfl
  exact ⟨rfl, rfl, rfl, h.1, h.2.1, h.2.2.1, h.2.2.2.1, h.2.2.2.2⟩

/-- C8 counterexample: the claim says an out-of-range move is rejected
gracefully with an error and no state change.  With the seated mover
submitting x = 5, the source dereferences `g.Board[0][5]` with no bounds
check, which panics (`none` in this model) instead of returning an
error. -/
theorem c8_counterexample :
    PlacePiece c8Game c8Move = none ∧ moveInBounds c8Move = false := by
  decide

/-- C8 as amended: board indexing is *not* guarded.  In an in-progress
game, an out-of-range coordinate pair submitted by the player whose turn
it is reaches the unchecked board index and panics; only the earlier
checks (terminal status, wrong player) can reject such a move
gracefully. -/
theorem c8_amended_out_of_range_panics :
    (∀ (g : Game) (m : Move) (p : Player) (b : Board),
       g.Status = .InProgress → g.Move = "X" → g.X = some p →
       p.ID = m.PlayerID → g.Board = some b → moveInBounds m = false →
       PlacePiece g m = none) ∧
    (∀ (g : Game) (m : Move) (p : Player) (b : Board),
       g.Status = .InProgress → g.Move = "O" → g.O = some p →
       p.ID = m.PlayerID → g.Board = some b → moveInBounds m = false →
       PlacePiece g m = none) := by
  constructor
  · intro g m p b hs hmv hseat hid hbd hout
    obtain ⟨B, Q, X, O, MV, ST⟩ := g
    dsimp only at hs hmv hseat hid hbd ⊢
    subst hs; subst hmv; subst hseat; subst hbd
    simp [PlacePiece, hid, cellAt_out_of_bounds b m hout]
  · intro g m p b hs hmv hseat hid hbd hout
    obtain ⟨B, Q, X, O, MV, ST⟩ := g
    dsimp only at hs hmv hseat hid hbd ⊢
    subst hs; subst hmv; subst hseat; subst hbd
    simp [PlacePiece, hid, cellAt_out_of_bounds b m hout]

/-- Witness for C8 (amended) at the concrete out-of-range move. -/
theorem c8_witness :
    c8Game.Status = .InProgress ∧ c8Game.Move = "X" ∧
    c8Game.X = some pX ∧ pX.ID = c8Move.PlayerID ∧
    moveInBounds c8Move = false ∧ PlacePiece c8Game c8Move = none :=
  ⟨rfl, rfl, rfl, rfl, rfl,
   (c8_amended_out_of_range_panics).1 c8Game c8Move pX emptyBoard
     rfl rfl rfl rfl rfl rfl⟩

/-- C10: with an empty queue, `advanceQueue` immediately returns the
outgoing player it has just appended, leaving the queue empty. -/
theorem c10_empty_queue_reseats_loser (p : Player) :
    advanceQueue [] (some p) = (some p, []) := rfl

/-- Every non-blank piece is in the image of `pieceOfBool`. -/
theorem pieceOfBool_eq (p : Piece) (hp : ¬ p = Piece.blank) :
    pieceOfBool (p == Piece.oPiece) = p := by
  cases p
  · exact absurd rfl hp
  · rfl
  · rfl

set_option maxRecDepth 4000 in
/-- The decidable core of C7 over the 512 all-non-blank boards: with no
three-in-line, the scan of `status` reports no winner and the move
counter reaches zero, giving `Cats`. -/
theorem statusOfBoard_bool (a b c d e f g h i : Bool)
    (hline : (boardOfBools a b c d e f g h i).noThreeInLine = true) :
    statusOfBoard (boardOfBools a b c d e f g h i) = Status.Cats := by
  revert hline
  revert a b c d e f g h i
  decide

/-- The core of C7: on a full board with no three-in-line, the scan of
`status` reports no winner and the move counter reaches zero, giving
`Cats`. -/
theorem statusOfBoard_full_noline (a b c d e f g h i : Piece)
    (hfull : (Board.mk ⟨a, b, c⟩ ⟨d, e, f⟩ ⟨g, h, i⟩).isFull = true)
    (hline : (Board.mk ⟨a, b, c⟩ ⟨d, e, f⟩ ⟨g, h, i⟩).noThreeInLine = true) :
    statusOfBoard (Board.mk ⟨a, b, c⟩ ⟨d, e, f⟩ ⟨g, h, i⟩) = Status.Cats := by
  simp only [Board.isFull, Board.cells, List.all_cons, List.all_nil,
    Bool.and_eq_true, bne_iff_ne, ne_eq] at hfull
  obtain ⟨h1, h2, h3, h4, h5, h6, h7, h8, h9, -⟩ := hfull
  rw [← pieceOfBool_eq a h1, ← pieceOfBool_eq b h2, ← pieceOfBool_eq c h3,
    ← pieceOfBool_eq d h4, ← pieceOfBool_eq e h5, ← pieceOfBool_eq f h6,
    ← pieceOfBool_eq g h7, ← pieceOfBool_eq h h8, ← pieceOfBool_eq i h9]
    at hline ⊢
  exact statusOfBoard_bool _ _ _ _ _ _ _ _ _ hline

/-- C7: a full board with no row, column or diagonal summing to ±3
evaluates to `Cats` (Draw) when both seats are occupied. -/
theorem c7_full_board_draw (g : Game) (bd : Board)
    (hx : g.X.isSome = true) (ho : g.O.isSome = true)
    (hb : g.Board = some bd)
    (hfull : bd.isFull = true) (hline : bd.noThreeInLine = true) :
    g.status = Status.Cats := by
  have hstat : g.status = statusOfBoard bd := by
    unfold Game.status
    rw [hb]
    cases hgx : g.X with
    | none => simp [hgx] at hx
    | some p =>
      cases hgo : g.O with
      | none => simp [hgo] at ho
      | some q => simp [hgx, hgo]
  rw [hstat]
  obtain ⟨⟨a, b, c⟩, ⟨d, e, f⟩, ⟨x, y, z⟩⟩ := bd
  exact statusOfBoard_full_noline a b c d e f x y z hfull hline

/-- Witness for C7 at the spec's example board. -/
theorem c7_witness :
    c7Board.isFull = true ∧ c7Board.noThreeInLine = true ∧
    c7Game.status = Status.Cats :=
  ⟨by decide, by decide,
   c7_full_board_draw c7Game c7Board (by decide) (by decide) rfl
     (by decide) (by decide)⟩

/-! ## C9: no player id is tracked twice -/

open List

/-- `advanceQueue` permutes: returned player plus new queue is a
rearrangement of old queue plus outgoing player. -/
theorem advanceQueue_perm (q : List Player) (l : Option Player) :
    (advanceQueue q l).1.toList ++ (advanceQueue q l).2 ~ q ++ l.toList := by
  rw [advanceQueue_eq]
  generalize q ++ l.toList = L
  cases L <;> simp

/-- The id-level reading of `advanceQueue_perm`. -/
theorem advanceQueue_ids_perm (q : List Player) (l : Option Player) :
    seatIds (advanceQueue q l).1 ++ ((advanceQueue q l).2.map Player.ID)
      ~ seatIds l ++ q.map Player.ID := by
  have h := (advanceQueue_perm q l).map Player.ID
  simp only [List.map_append] at h
  exact h.trans List.perm_append_comm

/-- Rearranging around an untouched middle block. -/
theorem perm_middle_swap {α : Type} (A A' B C C' : List α)
    (h : A' ++ C' ~ A ++ C) : A' ++ (B ++ C') ~ A ++ (B ++ C) :=
  calc A' ++ (B ++ C')
      ~ A' ++ (C' ++ B) := List.Perm.append_left A' List.perm_append_comm
    _ = (A' ++ C') ++ B := (List.append_assoc A' C' B).symm
    _ ~ (A ++ C) ++ B := h.append_right B
    _ = A ++ (C ++ B) := List.append_assoc A C B
    _ ~ A ++ (B ++ C) := List.Perm.append_left A List.perm_append_comm

/-- `NextGame` only moves players between the seats and the queue: the
tracked ids of a successful advancement are a permutation of the old
ones. -/
theorem nextGame_ids_perm (coin : Bool) (g g' : Game)
    (h : NextGame coin g = Except.ok g') : gameIds g' ~ gameIds g := by
  obtain ⟨B, Q, X, O, MV, ST⟩ := g
  cases ST
  case NoBoard => exact absurd h (by simp [NextGame])
  case InsufficientPlayers =>
    injection h with h1
    subst h1
    exact List.Perm.refl _
  case XWins =>
    injection h with h1
    subst h1
    exact List.Perm.append_left (seatIds X) (advanceQueue_ids_perm Q O)
  case OWins =>
    injection h with h1
    subst h1
    exact perm_middle_swap _ _ _ _ _ (advanceQueue_ids_perm Q X)
  case Cats =>
    cases coin
    · injection h with h1
      subst h1
      exact perm_middle_swap _ _ _ _ _ (advanceQueue_ids_perm Q X)
    · injection h with h1
      subst h1
      exact List.Perm.append_left (seatIds X) (advanceQueue_ids_perm Q O)
  case InProgress =>
    cases X with
    | some x =>
      cases O with
      | some o =>
        injection h with h1
        subst h1
        exact List.Perm.refl _
      | none =>
        injection h with h1
        subst h1
        refine List.Perm.append_left (seatIds (some x)) ?_
        have := advanceQueue_ids_perm Q none
        simpa using this
    | none =>
      cases O with
      | some o =>
        injection h with h1
        subst h1
        refine perm_middle_swap _ _ _ _ _ ?_
        have := advanceQueue_ids_perm Q none
        simpa using this
      | none =>
        injection h with h1
        subst h1
        have h2 := advanceQueue_ids_perm (advanceQueue Q none).2 none
        have h1p := advanceQueue_ids_perm Q none
        simp only [seatIds, Option.toList, List.map_nil, List.nil_append]
          at h2 h1p
        calc seatIds (advanceQueue Q none).1 ++
              (seatIds (advanceQueue (advanceQueue Q none).2 none).1 ++
                ((advanceQueue (advanceQueue Q none).2 none).2.map Player.ID))
            ~ seatIds (advanceQueue Q none).1 ++
                ((advanceQueue Q none).2.map Player.ID) :=
              List.Perm.append_left _ h2
          _ ~ Q.map Player.ID := h1p
          _ ~ [] ++ ([] ++ Q.map Player.ID) := by simp

/-- `PlacePiece` never changes the queue or the seats: every
non-panicking outcome carries exactly the ids of the input state. -/
theorem placePiece_ids (g g' : Game) (m : Move) (e : Option Err)
    (h : PlacePiece g m = some (g', e)) : gameIds g' = gameIds g := by
  unfold PlacePiece at h
  repeat' split at h
  all_goals cases h
  all_goals rfl

/-- Splicing an entry out of the queue leaves a sublist. -/
theorem removeFirst_sublist (id : String) :
    ∀ (q q' : List Player), removeFirst id q = some q' → q' <+ q := by
  intro q
  induction q with
  | nil => intro q' h; cases h
  | cons a t ih =>
    intro q' h
    unfold removeFirst at h
    split at h
    · cases h
      exact List.sublist_cons_self a t
    · cases hr : removeFirst id t with
      | none => rw [hr] at h; cases h
      | some r =>
        rw [hr] at h
        cases h
        exact (ih r hr).cons₂ a

/-- Replacing a queue entry by a record with the same id preserves the
id list. -/
theorem replaceInQueue_ids (p : Player) :
    ∀ (q q' : List Player), replaceInQueue p q = some q' →
      q'.map Player.ID = q.map Player.ID := by
  intro q
  induction q with
  | nil => intro q' h; cases h
  | cons a t ih =>
    intro q' h
    unfold replaceInQueue at h
    split at h
    · cases h
      next hbeq =>
        simp only [List.map_cons]
        rw [eq_of_beq hbeq]
    · cases hr : replaceInQueue p t with
      | none => rw [hr] at h; cases h
      | some r =>
        rw [hr] at h
        cases h
        simp only [List.map_cons, ih r hr]

/-- `UpdatePlayer` replaces a record in place without changing any id. -/
theorem updatePlayer_ids (g : Game) (p : Player) :
    gameIds (UpdatePlayer g p).1 = gameIds g := by
  unfold UpdatePlayer
  split
  · next hx =>
    cases hgx : g.X with
    | none => rw [hgx] at hx; cases hx
    | some x =>
      rw [hgx] at hx
      have hid : x.ID = p.ID := eq_of_beq hx
      simp [gameIds, seatIds, hgx, hid]
  · split
    · next ho =>
      cases hgo : g.O with
      | none => rw [hgo] at ho; cases ho
      | some o =>
        rw [hgo] at ho
        have hid : o.ID = p.ID := eq_of_beq ho
        simp [gameIds, seatIds, hgo, hid]
    · split
      · next q hq => simp [gameIds, replaceInQueue_ids p g.Queue q hq]
      · rfl

/-- `AddPlayer` preserves id uniqueness: the duplicate checks reject any
id already tracked, and a fresh id is added to exactly one place. -/
theorem addPlayer_nodup (g : Game) (p : Player)
    (hn : (gameIds g).Nodup) : (gameIds (AddPlayer g p).1).Nodup := by
  obtain ⟨B, Q, X, O, MV, ST⟩ := g
  unfold AddPlayer
  split
  · exact hn
  · split
    · exact hn
    · next hq hs =>
      dsimp only at hq hs
      rw [List.any_eq_true] at hq
      push_neg at hq
      have hqf' : ∀ x ∈ Q, x.ID ≠ p.ID := by
        intro x hx hid
        have hne := hq x hx
        rw [hid] at hne
        exact hne (by simp)
      have hqf : p.ID ∉ Q.map Player.ID := by
        simp only [List.mem_map]
        rintro ⟨x, hx, hid⟩
        exact hqf' x hx hid
      rw [Bool.or_eq_true] at hs
      push_neg at hs
      obtain ⟨hsx, hso⟩ := hs
      cases X with
      | none =>
        cases O with
        | none =>
          simp only [gameIds, seatIds] at hn ⊢
          simp only [Option.toList, List.map_cons, List.map_nil,
            List.nil_append, List.singleton_append, List.nodup_cons]
            at hn ⊢
          refine ⟨?_, by simpa using hn⟩
          simpa using hqf'
        | some o =>
          have hpo : p.ID ≠ o.ID := by
            intro hpe
            exact hso (by simp [occupiedBy, hpe.symm])
          simp only [gameIds, seatIds] at hn ⊢
          simp only [List.map_cons, List.map_nil, Option.toList,
            List.nil_append, List.cons_append, List.nodup_cons] at hn ⊢
          refine ⟨?_, hn⟩
          simp only [List.mem_cons]
          rintro (hpe | hmem)
          · exact hpo hpe
          · exact hqf hmem
      | some x =>
        have hpx : p.ID ≠ x.ID := by
          intro hpe
          exact hsx (by simp [occupiedBy, hpe.symm])
        cases O with
        | none =>
          simp only [gameIds, seatIds] at hn ⊢
          simp only [List.map_cons, List.map_nil, Option.toList,
            List.nil_append, List.cons_append, List.nodup_cons] at hn ⊢
          obtain ⟨hxm, hnt⟩ := hn
          refine ⟨?_, ?_, hnt⟩
          · simp only [List.mem_cons]
            rintro (hxe | hmem)
            · exact hpx hxe.symm
            · exact hxm hmem
          · exact hqf
        | some o =>
          have hpo : p.ID ≠ o.ID := by
            intro hpe
            exact hso (by simp [occupiedBy, hpe.symm])
          simp only [gameIds, seatIds] at hn ⊢
          have hperm :
              List.Perm ((Q ++ [p]).map Player.ID)
                (p.ID :: Q.map Player.ID) := by
            rw [List.map_append]
            simp [List.perm_append_singleton]
          rw [List.Perm.nodup_iff
            (List.Perm.append_left _ (List.Perm.append_left _ hperm))]
          simp only [List.map_cons, List.map_nil, Option.toList,
            List.nil_append, List.cons_append, List.nodup_cons,
            List.mem_cons] at hn ⊢
          obtain ⟨hxm, hom, hnt⟩ := hn
          refine ⟨?_, ?_, hqf, hnt⟩
          · rintro (hoe | hpe | hmem)
            · exact hxm (Or.inl hoe)
            · exact hpx hpe.symm
            · exact hxm (Or.inr hmem)
          · rintro (hpe | hmem)
            · exact hpo hpe.symm
            · exact hom hmem

/-- `RemovePlayer` preserves id uniqueness: a removal only drops an id
(and `NextGame` then only permutes the rest). -/
theorem removePlayer_nodup (coin : Bool) (g : Game) (id : String)
    (hn : (gameIds g).Nodup) :
    (gameIds (RemovePlayer coin g id).1).Nodup := by
  obtain ⟨B, Q, X, O, MV, ST⟩ := g
  unfold RemovePlayer
  split
  · -- seat X matched
    dsimp only
    have hn1 : (gameIds (clearBoard ⟨B, Q, none, O, MV, ST⟩)).Nodup :=
      List.Nodup.sublist (List.sublist_append_right (seatIds X) _) hn
    cases hng : NextGame coin (clearBoard ⟨B, Q, none, O, MV, ST⟩) with
    | ok g2 =>
      exact ((nextGame_ids_perm _ _ _ hng).symm).nodup hn1
    | error e =>
      exact hn1
  · split
    · -- seat O matched
      dsimp only
      have hn1 : (gameIds (clearBoard ⟨B, Q, X, none, MV, ST⟩)).Nodup := by
        refine List.Nodup.sublist ?_ hn
        exact (List.append_sublist_append_left (seatIds X)).mpr
          (List.sublist_append_right (seatIds O) _)
      cases hng : NextGame coin (clearBoard ⟨B, Q, X, none, MV, ST⟩) with
      | ok g2 =>
        exact ((nextGame_ids_perm _ _ _ hng).symm).nodup hn1
      | error e =>
        exact hn1
    · -- queue splice (or not found)
      dsimp only
      split
      · next q' hq' =>
        refine List.Nodup.sublist ?_ hn
        refine (List.append_sublist_append_left (seatIds X)).mpr ?_
        refine (List.append_sublist_append_left (seatIds O)).mpr ?_
        exact (removeFirst_sublist id Q q' hq').map Player.ID
      · exact hn

/-- C9: starting from the just-constructed game, every sequence of the
public operations keeps all tracked player ids distinct: no id occurs in
more than one of seat X, seat O and the queue, and none occurs twice in
the queue. -/
theorem c9_unique_ids (g : Game) (h : Reachable g) :
    (gameIds g).Nodup := by
  induction h with
  | init => decide
  | add g p _ ih => exact addPlayer_nodup g p ih
  | upd g p _ ih =>
    rw [updatePlayer_ids g p]
    exact ih
  | rem coin g id _ ih => exact removePlayer_nodup coin g id ih
  | place g g' m e _ hp ih =>
    rw [placePiece_ids g g' m e hp]
    exact ih
  | next coin g g' _ hng ih =>
    exact ((nextGame_ids_perm coin g g' hng).symm).nodup ih

/-- Witness for C9: the invariant holds of a state actually reached by
adding two players and a queued third. -/
theorem c9_witness :
    (gameIds (AddPlayer (AddPlayer (AddPlayer newGame pX).1 pO).1 pQ).1).Nodup :=
  c9_unique_ids _
    (Reachable.add _ pQ (Reachable.add _ pO (Reachable.add _ pX Reachable.init)))
